import Mathlib

/-!
# Shader parsing, shader compilation and the GL error wrapper of `Application.cpp`

A shallow embedding of `src/OpenGL/OpenGL/src/Application.cpp`:

* `ParseShader` (lines 47-86): the line router that splits a shader asset into a
  vertex and a fragment source;
* `GLClearErrors`, `GLCallLog`, `GLCALL` (lines 10-37): the error-checking wrapper;
* `CompileShader`, `CreateShader` (lines 88-148): the compile / attach / link pipeline.

Text is `List Char`.  The GL driver is an oracle (`Driver`) whose answers may depend
on the calls issued so far; the program state (`World`) records the pending GL error
queue, the trace of GL calls and what was written to `std::cout`.  A run returns, halts
in `__debugbreak()`, or reaches undefined behaviour (`Outcome`).  The log buffer of
`CompileShader` is modelled by what it holds as a C string after `glGetShaderInfoLog`.
-/

namespace OpenGLApp

/-! ## Text -/

/-- A `std::string`, as its sequence of characters. -/
abbrev Text := List Char

/-- Search of `std::string::find` from position `i`: the position of the first
occurrence of `pat` at or after the current position, `none` for `npos`. -/
def findFrom (pat : Text) : Text → Nat → Option Nat
  | [], i => if pat.isPrefixOf [] then some i else none
  | c :: cs, i => if pat.isPrefixOf (c :: cs) then some i else findFrom pat cs (i + 1)

/-- `s.find(pat)`: position of the first occurrence of `pat` in `s`, `none` for
`std::string::npos`. -/
def find (s pat : Text) : Option Nat := findFrom pat s 0

/-- `s.find(pat) != std::string::npos`. -/
def found (s pat : Text) : Bool := (find s pat).isSome

/-! ## ParseShader -/

/-- The literal `"#shader"` of line 64. -/
def shaderTag : Text := "#shader".toList

/-- The literal `"vertex"` of line 66. -/
def vertexTag : Text := "vertex".toList

/-- The literal `"fragment"` of line 71. -/
def fragmentTag : Text := "fragment".toList

/-- `enum class ShaderType { NONE = -1, VERTEX = 0, FRAGMENT = 1 }`. -/
inductive ShaderType where
  | NONE
  | VERTEX
  | FRAGMENT
  deriving DecidableEq, Repr

/-- `struct ShaderProgramSource { std::string VertexSource; std::string FragmentSource; }`. -/
structure ShaderProgramSource where
  VertexSource : Text
  FragmentSource : Text
  deriving DecidableEq, Repr

/-- Local state of `ParseShader`: the current tag and the two string streams
`ss[0]`, `ss[1]`. -/
structure ParseState where
  type : ShaderType
  ss0 : Text
  ss1 : Text
  deriving DecidableEq, Repr

/-- State at loop entry: `type = ShaderType::NONE`, both streams empty. -/
def ParseState.init : ParseState := ⟨ShaderType.NONE, [], []⟩

/-- One iteration of the `while (std::getline(stream, line))` body (lines 64-81). -/
def parseLine (st : ParseState) (line : Text) : ParseState :=
  if found line shaderTag then
    if found line vertexTag then
      { st with type := ShaderType.VERTEX }
    else if found line fragmentTag then
      { st with type := ShaderType.FRAGMENT }
    else st
  else
    match st.type with
    | ShaderType.NONE => st
    | ShaderType.VERTEX => { st with ss0 := st.ss0 ++ (line ++ ['\n']) }
    | ShaderType.FRAGMENT => { st with ss1 := st.ss1 ++ (line ++ ['\n']) }

/-- The whole `while` loop, run over the lines that `std::getline` delivers. -/
def parseLoop (st : ParseState) (lines : List Text) : ParseState :=
  lines.foldl parseLine st

/-- `ParseShader` on the lines delivered by the stream:
`return { ss[0].str(), ss[1].str() }` after the loop. -/
def ParseShaderLines (lines : List Text) : ShaderProgramSource :=
  let st := parseLoop ParseState.init lines
  ⟨st.ss0, st.ss1⟩

/-- The successive results of `std::getline` on a stream holding `cs`, where `cur`
holds (reversed) the characters already extracted for the current line.  A line ends
at `'\n'` (which is discarded) or at end of stream; at end of stream with nothing
extracted `getline` fails and the loop stops. -/
def getlinesAux : Text → Text → List Text
  | [], cur => if cur = [] then [] else [cur.reverse]
  | c :: cs, cur =>
    if c = '\n' then cur.reverse :: getlinesAux cs [] else getlinesAux cs (c :: cur)

/-- All lines `std::getline` delivers from a stream with the given content. -/
def getlines (content : Text) : List Text := getlinesAux content []

/-- `ParseShader(filePath)`; `fs` is the file system: `fs path` is the content of
the file, `none` when `std::ifstream` cannot open it (every `getline` then fails). -/
def ParseShader (fs : String → Option Text) (filePath : String) : ShaderProgramSource :=
  match fs filePath with
  | none => ParseShaderLines []
  | some content => ParseShaderLines (getlines content)

/-- A list of lines written out, each followed by a newline. -/
def serialise (ls : List Text) : Text := (ls.map (fun l => l ++ ['\n'])).flatten

/-! ### The routing rule in the words of the specification -/

/-- A tag-setting marker: a line containing `#shader` and also `vertex` or `fragment`. -/
def isTagSetting (l : Text) : Bool :=
  found l shaderTag && (found l vertexTag || found l fragmentTag)

/-- The nearest tag-setting marker strictly before position `i`, if any. -/
def nearestMarker (lines : List Text) (i : Nat) : Option Text :=
  (lines.take i).reverse.find? isTagSetting

/-- Line `i` goes to the vertex source: it does not contain `#shader` and its nearest
preceding tag-setting marker contains `vertex`. -/
def routedVertex (lines : List Text) (i : Nat) : Bool :=
  !found (lines.getD i []) shaderTag &&
    match nearestMarker lines i with
    | none => false
    | some m => found m vertexTag

/-- Line `i` goes to the fragment source: it does not contain `#shader` and its nearest
preceding tag-setting marker contains `fragment` and not `vertex`. -/
def routedFragment (lines : List Text) (i : Nat) : Bool :=
  !found (lines.getD i []) shaderTag &&
    match nearestMarker lines i with
    | none => false
    | some m => found m fragmentTag && !found m vertexTag

/-- Concatenation, in input order, of every selected line followed by a newline. -/
def collect (lines : List Text) (sel : Nat → Bool) : Text :=
  serialise (((List.range lines.length).filter sel).map (fun i => lines.getD i []))

/-- The tag the loop holds after a prefix whose last tag-setting marker is `m`
(line 66 tests `vertex` first). -/
def tagOf (m : Option Text) : ShaderType :=
  match m with
  | none => ShaderType.NONE
  | some l => if found l vertexTag then ShaderType.VERTEX else ShaderType.FRAGMENT

/-! ## The GL driver and the program state -/

/-- Modelled from the spec: the enumerant `GL_NO_ERROR` of `GL/glew.h` (the header is
not part of the repository); line 26 of the source notes its value, zero. -/
def GL_NO_ERROR : Nat := 0

/-- Modelled from the spec: the enumerant `GL_FALSE` of `GL/glew.h` (the header is not
part of the repository); line 105 of the source notes its value, zero. -/
def GL_FALSE : Int := 0

/-- Modelled from the spec: the stage kind `GL_VERTEX_SHADER` of `GL/glew.h` (the
header is not part of the repository), `0x8B31` in the OpenGL registry. -/
def GL_VERTEX_SHADER : Nat := 0x8B31

/-- Modelled from the spec: the stage kind `GL_FRAGMENT_SHADER` of `GL/glew.h` (the
header is not part of the repository), `0x8B30` in the OpenGL registry. -/
def GL_FRAGMENT_SHADER : Nat := 0x8B30

/-- Modelled from the spec: the query name `GL_COMPILE_STATUS` of `GL/glew.h` (the
header is not part of the repository), `0x8B81` in the OpenGL registry. -/
def GL_COMPILE_STATUS : Nat := 0x8B81

/-- Modelled from the spec: the query name `GL_INFO_LOG_LENGTH` of `GL/glew.h` (the
header is not part of the repository), `0x8B84` in the OpenGL registry. -/
def GL_INFO_LOG_LENGTH : Nat := 0x8B84

/-- A pending GL error code.  `GL_NO_ERROR` (zero) is what `glGetError` answers when
nothing is pending, so a queued code is never zero. -/
abbrev GLError := { n : Nat // n ≠ 0 }

/-- The GL entry points the shader pipeline calls, with their arguments. -/
inductive GLCmd where
  | glCreateShader (type : Nat)
  | glShaderSource (id : Nat) (src : Text)
  | glCompileShader (id : Nat)
  | glGetShaderiv (id pname : Nat)
  | glGetShaderInfoLog (id : Nat) (bufSize : Int)
  | glDeleteShader (id : Nat)
  | glCreateProgram
  | glAttachShader (program shader : Nat)
  | glLinkProgram (program : Nat)
  | glValidateProgram (program : Nat)
  deriving DecidableEq, Repr

/-- The GL implementation, as an oracle.  Every answer may depend on the calls issued
before (`List GLCmd`, oldest first). -/
structure Driver where
  /-- Error codes the call leaves pending. -/
  raises : List GLCmd → GLCmd → List GLError
  /-- Handle returned by `glCreateShader(type)`. -/
  createShader : List GLCmd → Nat → Nat
  /-- Value stored by `glGetShaderiv(id, pname, &v)`. -/
  getShaderiv : List GLCmd → Nat → Nat → Int
  /-- The info log the driver holds for shader `id`. -/
  getShaderInfoLog : List GLCmd → Nat → Text
  /-- Handle returned by `glCreateProgram()`. -/
  createProgram : List GLCmd → Nat

/-- Observable program state: the queue of pending GL errors (oldest first), the GL
calls issued so far (oldest first) and the lines written to `std::cout`. -/
structure World where
  errors : List GLError
  calls : List GLCmd
  cout : List String
  deriving DecidableEq

/-- Result of running a piece of the program: control returns with a value; the
process stopped in `__debugbreak()`; or the program reached a statement whose
behaviour C++ leaves undefined (the state is the one reached just before it). -/
inductive Outcome (α : Type) where
  | ret (a : α) (w : World)
  | halt (w : World)
  | undefined (w : World)
  deriving DecidableEq

/-- A statement sequence of the program. -/
def Prog (α : Type) : Type := World → Outcome α

/-- Sequencing: the rest of the block runs only if control returned. -/
def Prog.bind {α β : Type} (x : Prog α) (f : α → Prog β) : Prog β := fun w =>
  match x w with
  | Outcome.ret a w1 => f a w1
  | Outcome.halt w1 => Outcome.halt w1
  | Outcome.undefined w1 => Outcome.undefined w1

instance : Monad Prog where
  pure a := fun w => Outcome.ret a w
  bind := Prog.bind

/-- `glGetError()`: the oldest pending code, which is removed, or `GL_NO_ERROR`. -/
def glGetError (w : World) : Nat × World :=
  match w.errors with
  | [] => (GL_NO_ERROR, w)
  | e :: es => (e.val, { w with errors := es })

set_option linter.unusedVariables false in
/-- `GLClearErrors` (lines 24-27): `while (glGetError() != GL_NO_ERROR);`. -/
def GLClearErrors (w : World) : World :=
  if h : (glGetError w).1 ≠ GL_NO_ERROR then GLClearErrors (glGetError w).2
  else (glGetError w).2
termination_by w.errors.length
decreasing_by
  revert h
  unfold glGetError
  cases w.errors with
  | nil => simp [GL_NO_ERROR]
  | cons e es => simp

/-- `GLCallLog` (lines 29-37): `while (GLenum error = glGetError())` whose body prints
one line and returns `false`, so at most one code is read and reported. -/
def GLCallLog (functionname filename : String) (errorline : Int) (w : World) : Bool × World :=
  let r := glGetError w
  if r.1 ≠ 0 then
    (false, { r.2 with cout := r.2.cout ++
      ["[OPENGL ERROR] (" ++ toString r.1 ++ ") : " ++ functionname ++ " " ++ filename ++
        " : " ++ toString errorline] })
  else (true, r.2)

/-- The macro `GLCALL(x)` (lines 13-15): `GLClearErrors(); x; ASSERT(GLCallLog(#x, __FILE__,
__LINE__))`, where `ASSERT(c)` is `if(!(c)) __debugbreak();`.  `text` is `#x`. -/
def GLCALL {α : Type} (x : Prog α) (text file : String) (line : Int) : Prog α := fun w =>
  match x (GLClearErrors w) with
  | Outcome.halt w1 => Outcome.halt w1
  | Outcome.undefined w1 => Outcome.undefined w1
  | Outcome.ret a w1 =>
    if !(GLCallLog text file line w1).1 then Outcome.halt (GLCallLog text file line w1).2
    else Outcome.ret a (GLCallLog text file line w1).2

/-- The driver executes one call: the call is recorded and the errors it raises are
queued behind the pending ones. -/
def issue (d : Driver) (c : GLCmd) (w : World) : World :=
  { w with errors := w.errors ++ d.raises w.calls c, calls := w.calls ++ [c] }

/-- A GL entry point called through the driver: the call is executed and its result,
which the driver computes from the calls issued before, is handed back. -/
def glCall {α : Type} (d : Driver) (c : GLCmd) (result : List GLCmd → α) : Prog α := fun w =>
  Outcome.ret (result w.calls) (issue d c w)

/-- The C string found at the start of a `char` array that holds `cs` followed by a
terminating NUL: the characters before the first NUL. -/
def cstr (cs : Text) : Text := cs.takeWhile (fun c => c != Char.ofNat 0)

def glCreateShader (d : Driver) (type : Nat) : Prog Nat :=
  glCall d (GLCmd.glCreateShader type) (fun h => d.createShader h type)

/-- `glShaderSource(id, 1, &src, nullptr)`: with a null length array the one string
is read up to its terminating NUL, so `src` is the C string the driver receives. -/
def glShaderSource (d : Driver) (id : Nat) (src : Text) : Prog Unit :=
  glCall d (GLCmd.glShaderSource id src) (fun _ => ())

def glCompileShader (d : Driver) (id : Nat) : Prog Unit :=
  glCall d (GLCmd.glCompileShader id) (fun _ => ())

def glGetShaderiv (d : Driver) (id pname : Nat) : Prog Int :=
  glCall d (GLCmd.glGetShaderiv id pname) (fun h => d.getShaderiv h id pname)

/-- `glGetShaderInfoLog(id, bufSize, &length, message)` on a fresh buffer `message` of
`bufSize` bytes.  The driver stores at most `bufSize` characters, the terminating NUL
included; with `bufSize < 1` it stores nothing.  The result is what `message` then
holds as a C string, `none` when the buffer was left unwritten. -/
def glGetShaderInfoLog (d : Driver) (id : Nat) (bufSize : Int) : Prog (Option Text) :=
  glCall d (GLCmd.glGetShaderInfoLog id bufSize)
    (fun h => if 1 ≤ bufSize then some (cstr ((d.getShaderInfoLog h id).take (bufSize.toNat - 1)))
      else none)

def glDeleteShader (d : Driver) (id : Nat) : Prog Unit :=
  glCall d (GLCmd.glDeleteShader id) (fun _ => ())

def glCreateProgram (d : Driver) : Prog Nat :=
  glCall d GLCmd.glCreateProgram (fun h => d.createProgram h)

def glAttachShader (d : Driver) (program shader : Nat) : Prog Unit :=
  glCall d (GLCmd.glAttachShader program shader) (fun _ => ())

def glLinkProgram (d : Driver) (program : Nat) : Prog Unit :=
  glCall d (GLCmd.glLinkProgram program) (fun _ => ())

def glValidateProgram (d : Driver) (program : Nat) : Prog Unit :=
  glCall d (GLCmd.glValidateProgram program) (fun _ => ())

/-- `std::cout << s << std::endl`. -/
def coutLine (s : String) : Prog Unit := fun w =>
  Outcome.ret () { w with cout := w.cout ++ [s] }

/-- `(char*)alloca(length * sizeof(char))` (line 111): the `int` is converted to
`size_t`, so a negative `length` asks for more than any stack holds and the behaviour
is undefined. -/
def alloca (length : Int) : Prog Unit := fun w =>
  if 0 ≤ length then Outcome.ret () w else Outcome.undefined w

/-- `std::cout << message << std::endl` for the `char*` buffer `message` (line 116):
the C string in the buffer is written; reading a buffer that was never written is
undefined behaviour. -/
def coutCString (message : Option Text) : Prog Unit := fun w =>
  match message with
  | some t => Outcome.ret () { w with cout := w.cout ++ [String.mk t] }
  | none => Outcome.undefined w

/-- `CompileShader` (lines 88-122).  `file` is the value of `__FILE__`;
`source.c_str()` (line 91) is `cstr source`. -/
def CompileShader (d : Driver) (file : String) (type : Nat) (source : Text) : Prog Nat := do
  let id ← GLCALL (glCreateShader d type) "unsigned int id = glCreateShader(type)" file 90
  GLCALL (glShaderSource d id (cstr source)) "glShaderSource(id, 1, &src, nullptr)" file 97
  GLCALL (glCompileShader d id) "glCompileShader(id)" file 99
  let result ← GLCALL (glGetShaderiv d id GL_COMPILE_STATUS)
    "glGetShaderiv(id, GL_COMPILE_STATUS, &result)" file 103
  if result = GL_FALSE then
    let length ← GLCALL (glGetShaderiv d id GL_INFO_LOG_LENGTH)
      "glGetShaderiv(id, GL_INFO_LOG_LENGTH, &length)" file 108
    alloca length
    let message ← GLCALL (glGetShaderInfoLog d id length)
      "glGetShaderInfoLog(id, length, &length, message)" file 112
    coutLine ("Failed to compile " ++
      (if type = GL_VERTEX_SHADER then "Vertex" else "Fragment") ++ " shader!!!")
    coutCString message
    GLCALL (glDeleteShader d id) "glDeleteShader(id)" file 118
    pure 0
  else
    pure id

/-- The code `GL_INVALID_ENUM` (`0x0500`) as a pending error. -/
def invalidEnum : GLError := ⟨0x0500, by decide⟩

/-- The code `GL_INVALID_VALUE` (`0x0501`) as a pending error. -/
def invalidValue : GLError := ⟨0x0501, by decide⟩

/-- A driver that raises no error and answers every `GL_COMPILE_STATUS` query with
`status`; handles are numbered by the position of the creating call; the info log
has 24 characters and the reported log length counts the NUL. -/
def quietDriver (status : Int) : Driver where
  raises := fun _ _ => []
  createShader := fun h _ => h.length + 1
  getShaderiv := fun _ _ pname => if pname = GL_COMPILE_STATUS then status else 25
  getShaderInfoLog := fun _ _ => "ERROR: 0:1: syntax error".toList
  createProgram := fun h => h.length + 1

/-- Every call of the run `cs`, issued after `base`, raises no error. -/
def quietRun (d : Driver) : List GLCmd → List GLCmd → Prop
  | _, [] => True
  | base, c :: cs => d.raises base c = [] ∧ quietRun d (base ++ [c]) cs

/-! ## Substring search -/

theorem findFrom_isSome (pat : Text) : ∀ (s : Text) (i : Nat),
    (findFrom pat s i).isSome = true ↔ pat <:+: s := by
  intro s
  induction s with
  | nil =>
    intro i
    cases pat <;> simp [findFrom, List.isPrefixOf]
  | cons c cs ih =>
    intro i
    rw [findFrom, List.infix_cons_iff]
    by_cases h : pat.isPrefixOf (c :: cs) = true
    · simp [h, List.isPrefixOf_iff_prefix.mp h]
    · have h2 : ¬ pat <+: c :: cs := fun hp => h (List.isPrefixOf_iff_prefix.mpr hp)
      simp [h, h2, ih]

theorem found_iff (s pat : Text) : found s pat = true ↔ pat <:+: s := by
  unfold found find
  exact findFrom_isSome pat s 0

theorem found_eq_false_iff (s pat : Text) : found s pat = false ↔ ¬ pat <:+: s := by
  rw [← found_iff]; simp

/-- A pattern without newline that occurs in `l ++ '\n' :: rest` occurs in `l` or in
`rest`: it cannot lie across the newline. -/
theorem infix_line_cases (pat : Text) (hnl : '\n' ∉ pat) :
    ∀ (l rest : Text), pat <:+: l ++ '\n' :: rest → pat <:+: l ∨ pat <:+: rest := by
  intro l
  induction l with
  | nil =>
    intro rest h
    rw [List.nil_append, List.infix_cons_iff] at h
    rcases h with h | h
    · rw [List.prefix_cons_iff] at h
      rcases h with h | ⟨t, ht, _⟩
      · left; rw [h]
      · exact absurd (by rw [ht]; simp) hnl
    · exact Or.inr h
  | cons c l ih =>
    intro rest h
    rw [List.cons_append, List.infix_cons_iff] at h
    rcases h with h | h
    · -- `pat` starts at the first character of the line
      have h1 : (c :: l) <+: c :: (l ++ '\n' :: rest) := by
        rw [← List.cons_append]; exact List.prefix_append _ _
      rcases List.prefix_or_prefix_of_prefix h h1 with h2 | h2
      · exact Or.inl h2.isInfix
      · -- the line is a proper prefix of `pat`, which then contains the newline
        obtain ⟨t, ht⟩ := h2
        obtain ⟨u, hu⟩ := h
        rw [← ht, List.append_assoc, ← List.cons_append, List.append_cancel_left_eq] at hu
        cases t with
        | nil => left; rw [← ht, List.append_nil]
        | cons a t =>
          simp only [List.cons_append, List.cons.injEq] at hu
          exact absurd (by rw [← ht, hu.1]; simp) hnl
    · rcases ih rest h with h2 | h2
      · exact Or.inl (h2.trans (List.suffix_cons c l).isInfix)
      · exact Or.inr h2

theorem serialise_nil : serialise [] = [] := rfl

theorem serialise_cons (l : Text) (ls : List Text) :
    serialise (l :: ls) = l ++ '\n' :: serialise ls := by
  simp [serialise]

theorem serialise_append (a b : List Text) : serialise (a ++ b) = serialise a ++ serialise b := by
  simp [serialise]

/-- A non-empty pattern without newline occurs in a serialised list of lines only
inside one of the lines. -/
theorem infix_serialise (pat : Text) (hne : pat ≠ []) (hnl : '\n' ∉ pat) :
    ∀ ls : List Text, pat <:+: serialise ls → ∃ l ∈ ls, pat <:+: l := by
  intro ls
  induction ls with
  | nil =>
    intro h
    rw [serialise_nil, List.infix_nil] at h
    exact absurd h hne
  | cons l ls ih =>
    intro h
    rw [serialise_cons] at h
    rcases infix_line_cases pat hnl l _ h with h1 | h1
    · exact ⟨l, List.mem_cons_self _ _, h1⟩
    · obtain ⟨m, hm, hm2⟩ := ih h1
      exact ⟨m, List.mem_cons_of_mem _ hm, hm2⟩

/-! ## The parse loop -/

theorem parseLoop_nil (st : ParseState) : parseLoop st [] = st := rfl

theorem parseLoop_cons (st : ParseState) (l : Text) (ls : List Text) :
    parseLoop st (l :: ls) = parseLoop (parseLine st l) ls := rfl

theorem parseLoop_append (st : ParseState) (xs ys : List Text) :
    parseLoop st (xs ++ ys) = parseLoop (parseLoop st xs) ys := by
  simp [parseLoop, List.foldl_append]

theorem parseLoop_snoc (st : ParseState) (xs : List Text) (x : Text) :
    parseLoop st (xs ++ [x]) = parseLine (parseLoop st xs) x := by
  rw [parseLoop_append]; rfl

/-- The loop over lines none of which is a marker: the tag stays, the lines go to the
stream the tag selects. -/
theorem parseLoop_plain (ls : List Text) :
    ∀ st : ParseState, (∀ l ∈ ls, found l shaderTag = false) →
      parseLoop st ls =
        match st.type with
        | ShaderType.NONE => st
        | ShaderType.VERTEX => { st with ss0 := st.ss0 ++ serialise ls }
        | ShaderType.FRAGMENT => { st with ss1 := st.ss1 ++ serialise ls } := by
  induction ls with
  | nil =>
    intro st _
    obtain ⟨t, a, b⟩ := st
    cases t <;> simp [parseLoop_nil, serialise_nil]
  | cons l ls ih =>
    intro st h
    have hl : found l shaderTag = false := h l (List.mem_cons_self _ _)
    have hls : ∀ l ∈ ls, found l shaderTag = false :=
      fun m hm => h m (List.mem_cons_of_mem _ hm)
    obtain ⟨t, a, b⟩ := st
    rw [parseLoop_cons, ih _ hls]
    cases t <;> simp [parseLine, hl, serialise_cons]

theorem nearestMarker_snoc_lt (xs : List Text) (x : Text) (i : Nat) (hi : i ≤ xs.length) :
    nearestMarker (xs ++ [x]) i = nearestMarker xs i := by
  unfold nearestMarker
  rw [List.take_append_of_le_length hi]

theorem nearestMarker_length (xs : List Text) :
    nearestMarker xs xs.length = xs.reverse.find? isTagSetting := by
  unfold nearestMarker
  rw [List.take_length]

theorem getD_snoc_lt (xs : List Text) (x : Text) (i : Nat) (hi : i < xs.length) :
    (xs ++ [x]).getD i [] = xs.getD i [] := by
  simp [List.getD_eq_getElem?_getD, List.getElem?_append_left hi]

theorem getD_snoc_length (xs : List Text) (x : Text) :
    (xs ++ [x]).getD xs.length [] = x := by
  simp [List.getD_eq_getElem?_getD]

/-- Adding a line at the end adds at most that line to a collected source. -/
theorem collect_snoc (xs : List Text) (x : Text) (sel sel2 : List Text → Nat → Bool)
    (hsel : ∀ i, i < xs.length → sel2 (xs ++ [x]) i = sel xs i) :
    collect (xs ++ [x]) (sel2 (xs ++ [x])) =
      collect xs (sel xs) ++ (if sel2 (xs ++ [x]) xs.length then x ++ ['\n'] else []) := by
  unfold collect
  rw [List.length_append, List.length_singleton, List.range_succ, List.filter_append,
    List.map_append, serialise_append]
  congr 1
  · congr 1
    have h1 : (List.range xs.length).filter (sel2 (xs ++ [x])) =
        (List.range xs.length).filter (sel xs) := by
      apply List.filter_congr
      intro i hi
      exact hsel i (List.mem_range.mp hi)
    rw [h1]
    apply List.map_congr_left
    intro i hi
    exact getD_snoc_lt xs x i (List.mem_range.mp (List.mem_filter.mp hi).1)
  · by_cases h : sel2 (xs ++ [x]) xs.length = true
    · simp [h, List.filter_cons, getD_snoc_length, serialise_cons, serialise_nil]
    · simp [h, List.filter_cons, serialise_nil]

theorem routedVertex_snoc_lt (xs : List Text) (x : Text) (i : Nat) (hi : i < xs.length) :
    routedVertex (xs ++ [x]) i = routedVertex xs i := by
  unfold routedVertex
  rw [getD_snoc_lt xs x i hi, nearestMarker_snoc_lt xs x i (Nat.le_of_lt hi)]

theorem routedFragment_snoc_lt (xs : List Text) (x : Text) (i : Nat) (hi : i < xs.length) :
    routedFragment (xs ++ [x]) i = routedFragment xs i := by
  unfold routedFragment
  rw [getD_snoc_lt xs x i hi, nearestMarker_snoc_lt xs x i (Nat.le_of_lt hi)]

/-- The state of the loop after any list of lines: the tag is that of the last
tag-setting marker, and each stream holds the lines the routing rule selects. -/
theorem parseLoop_init (lines : List Text) :
    parseLoop ParseState.init lines =
      ⟨tagOf (lines.reverse.find? isTagSetting), collect lines (routedVertex lines),
        collect lines (routedFragment lines)⟩ := by
  induction lines using List.reverseRecOn with
  | nil => rfl
  | append_singleton xs x ih =>
    rw [parseLoop_snoc, ih, collect_snoc xs x routedVertex routedVertex (routedVertex_snoc_lt xs x),
      collect_snoc xs x routedFragment routedFragment (routedFragment_snoc_lt xs x)]
    have hv : routedVertex (xs ++ [x]) xs.length =
        (!found x shaderTag &&
          match xs.reverse.find? isTagSetting with
          | none => false
          | some m => found m vertexTag) := by
      unfold routedVertex
      rw [getD_snoc_length, nearestMarker_snoc_lt xs x _ (Nat.le_refl _), nearestMarker_length]
    have hf : routedFragment (xs ++ [x]) xs.length =
        (!found x shaderTag &&
          match xs.reverse.find? isTagSetting with
          | none => false
          | some m => found m fragmentTag && !found m vertexTag) := by
      unfold routedFragment
      rw [getD_snoc_length, nearestMarker_snoc_lt xs x _ (Nat.le_refl _), nearestMarker_length]
    rw [hv, hf, List.reverse_append, List.reverse_singleton, List.singleton_append,
      List.find?_cons]
    cases hm : found x shaderTag
    · -- an ordinary line
      have hx : isTagSetting x = false := by simp [isTagSetting, hm]
      cases hfind : xs.reverse.find? isTagSetting with
      | none => simp [parseLine, hm, hx, tagOf]
      | some m =>
        have hmt : isTagSetting m = true := List.find?_some hfind
        cases hmv : found m vertexTag
        · have hmf : found m fragmentTag = true := by
            simp only [isTagSetting, hmv, Bool.false_or, Bool.and_eq_true] at hmt
            exact hmt.2
          simp [parseLine, hm, hx, tagOf, hmv, hmf]
        · simp [parseLine, hm, hx, tagOf, hmv]
    · -- a marker line
      cases hxv : found x vertexTag
      · cases hxf : found x fragmentTag
        · have hx : isTagSetting x = false := by simp [isTagSetting, hxv, hxf]
          simp [parseLine, hm, hx, hxv, hxf]
        · have hx : isTagSetting x = true := by simp [isTagSetting, hm, hxf]
          simp [parseLine, hm, hx, hxv, hxf, tagOf]
      · have hx : isTagSetting x = true := by simp [isTagSetting, hm, hxv]
        simp [parseLine, hm, hx, hxv, tagOf]

theorem ParseShaderLines_eq_collect (lines : List Text) :
    ParseShaderLines lines =
      ⟨collect lines (routedVertex lines), collect lines (routedFragment lines)⟩ := by
  unfold ParseShaderLines
  rw [parseLoop_init]

/-- A non-empty pattern without newline that no selected line contains does not occur
in the collected source. -/
theorem not_infix_collect (pat : Text) (hne : pat ≠ []) (hnl : '\n' ∉ pat)
    (lines : List Text) (sel : Nat → Bool)
    (hsel : ∀ i, sel i = true → ¬ pat <:+: lines.getD i []) :
    ¬ pat <:+: collect lines sel := by
  intro h
  obtain ⟨l, hl, hl2⟩ := infix_serialise pat hne hnl _ h
  obtain ⟨i, hi, rfl⟩ := List.mem_map.mp hl
  exact hsel i (List.mem_filter.mp hi).2 hl2

theorem parseLine_vertex (st : ParseState) (m : Text) (hm : found m shaderTag = true)
    (hv : found m vertexTag = true) :
    parseLine st m = { st with type := ShaderType.VERTEX } := by
  simp [parseLine, hm, hv]

theorem parseLine_fragment (st : ParseState) (m : Text) (hm : found m shaderTag = true)
    (hv : found m vertexTag = false) (hf : found m fragmentTag = true) :
    parseLine st m = { st with type := ShaderType.FRAGMENT } := by
  simp [parseLine, hm, hv, hf]

theorem parseLine_other (st : ParseState) (m : Text) (hm : found m shaderTag = true)
    (hv : found m vertexTag = false) (hf : found m fragmentTag = false) :
    parseLine st m = st := by
  simp [parseLine, hm, hv, hf]

theorem mem_append3 {V1 F V2 : List Text} {P : Text → Prop}
    (h : ∀ l ∈ V1 ++ F ++ V2, P l) :
    (∀ l ∈ V1, P l) ∧ (∀ l ∈ F, P l) ∧ (∀ l ∈ V2, P l) :=
  ⟨fun l hl => h l (by simp [hl]), fun l hl => h l (by simp [hl]),
    fun l hl => h l (by simp [hl])⟩

/-! ## Claims about `ParseShader` -/

/-- C1: for every sequence of lines, the vertex source is the concatenation, in input
order, of the lines (each followed by a newline) that do not contain `#shader` and whose
nearest preceding tag-setting marker contains `vertex`; the fragment source is the same
over the lines whose nearest preceding tag-setting marker contains `fragment` and not
`vertex`; a line without preceding tag-setting marker is in neither; two sections of
one kind separated by a section of the other kind are concatenated in order. -/
theorem ParseShader_routing (lines : List Text) :
    (ParseShaderLines lines).VertexSource = collect lines (routedVertex lines) ∧
    (ParseShaderLines lines).FragmentSource = collect lines (routedFragment lines) ∧
    (∀ i, nearestMarker lines i = none →
      routedVertex lines i = false ∧ routedFragment lines i = false) ∧
    (∀ V1 F V2 : List Text, (∀ l ∈ V1 ++ F ++ V2, found l shaderTag = false) →
      ParseShaderLines ("#shader vertex".toList :: V1 ++ "#shader fragment".toList :: F ++
        "#shader vertex".toList :: V2) = ⟨serialise (V1 ++ V2), serialise F⟩ ∧
      ParseShaderLines ("#shader fragment".toList :: V1 ++ "#shader vertex".toList :: F ++
        "#shader fragment".toList :: V2) = ⟨serialise F, serialise (V1 ++ V2)⟩) := by
  refine ⟨?_, ?_, ?_, ?_⟩
  · rw [ParseShaderLines_eq_collect]
  · rw [ParseShaderLines_eq_collect]
  · intro i hi
    simp [routedVertex, routedFragment, hi]
  · intro V1 F V2 h
    obtain ⟨h1, h2, h3⟩ := mem_append3 h
    have hv : parseLine ParseState.init "#shader vertex".toList =
        ⟨ShaderType.VERTEX, [], []⟩ := by decide
    have hf : parseLine ParseState.init "#shader fragment".toList =
        ⟨ShaderType.FRAGMENT, [], []⟩ := by decide
    constructor
    · unfold ParseShaderLines
      rw [List.append_assoc, List.cons_append, parseLoop_cons, parseLoop_append, hv,
        parseLoop_plain V1 _ h1, List.cons_append, parseLoop_cons,
        parseLine_fragment _ _ (by decide) (by decide) (by decide), parseLoop_append,
        parseLoop_plain F _ h2, parseLoop_cons,
        parseLine_vertex _ _ (by decide) (by decide), parseLoop_plain V2 _ h3]
      simp [serialise_append]
    · unfold ParseShaderLines
      rw [List.append_assoc, List.cons_append, parseLoop_cons, parseLoop_append, hf,
        parseLoop_plain V1 _ h1, List.cons_append, parseLoop_cons,
        parseLine_vertex _ _ (by decide) (by decide), parseLoop_append,
        parseLoop_plain F _ h2, parseLoop_cons,
        parseLine_fragment _ _ (by decide) (by decide) (by decide), parseLoop_plain V2 _ h3]
      simp [serialise_append]

/-- Instance of C1: vertex lines `a`, `c` around fragment line `b`. -/
theorem ParseShader_routing_witness :
    (ParseShaderLines ["x".toList, "#shader vertex".toList, "a".toList,
        "#shader fragment".toList, "b".toList, "#shader vertex".toList, "c".toList]).VertexSource
      = "a\nc\n".toList ∧
    ParseShaderLines ("#shader vertex".toList :: ["a".toList] ++
        "#shader fragment".toList :: ["b".toList] ++ "#shader vertex".toList :: ["c".toList])
      = ⟨"a\nc\n".toList, "b\n".toList⟩ :=
  ⟨(ParseShader_routing _).1.trans (by decide),
    ((ParseShader_routing []).2.2.2 ["a".toList] ["b".toList] ["c".toList]
      (by decide)).1.trans (by decide)⟩

/-- C2: for lists `V`, `F` of lines without `#shader`, parsing `#shader vertex`, `V`,
`#shader fragment`, `F` gives vertex source `V` serialised and fragment source `F`
serialised, so the two sources together are the non-marker lines in order; the file
`#shader vertex\nA\n#shader fragment\nB\n` gives `A\n` and `B\n`. -/
theorem ParseShader_two_sections (V F : List Text)
    (hV : ∀ l ∈ V, found l shaderTag = false) (hF : ∀ l ∈ F, found l shaderTag = false) :
    ParseShaderLines ("#shader vertex".toList :: V ++ "#shader fragment".toList :: F) =
      ⟨serialise V, serialise F⟩ ∧
    (ParseShaderLines ("#shader vertex".toList :: V ++ "#shader fragment".toList :: F)).VertexSource
      ++ (ParseShaderLines
        ("#shader vertex".toList :: V ++ "#shader fragment".toList :: F)).FragmentSource =
      serialise (V ++ F) ∧
    (∀ path : String,
      ParseShader (fun _ => some "#shader vertex\nA\n#shader fragment\nB\n".toList) path =
        ⟨"A\n".toList, "B\n".toList⟩) := by
  have hv : parseLine ParseState.init "#shader vertex".toList =
      ⟨ShaderType.VERTEX, [], []⟩ := by decide
  have key : ParseShaderLines ("#shader vertex".toList :: V ++ "#shader fragment".toList :: F) =
      ⟨serialise V, serialise F⟩ := by
    unfold ParseShaderLines
    rw [List.cons_append, parseLoop_cons, parseLoop_append, hv, parseLoop_plain V _ hV,
      parseLoop_cons, parseLine_fragment _ _ (by decide) (by decide) (by decide),
      parseLoop_plain F _ hF]
    simp
  refine ⟨key, ?_, ?_⟩
  · rw [key, serialise_append]
  · intro path
    have h : ParseShaderLines (getlines "#shader vertex\nA\n#shader fragment\nB\n".toList) =
        ⟨"A\n".toList, "B\n".toList⟩ := by decide
    exact h

/-- Instance of C2 at `V = [A]`, `F = [B]`. -/
theorem ParseShader_two_sections_witness :
    ParseShaderLines ["#shader vertex".toList, "A".toList, "#shader fragment".toList,
      "B".toList] = ⟨"A\n".toList, "B\n".toList⟩ :=
  (ParseShader_two_sections ["A".toList] ["B".toList] (by decide) (by decide)).1

/-- C3: when no line contains `#shader`, both sources are empty; so for the empty
sequence of lines, and for a file that cannot be opened. -/
theorem ParseShader_no_marker (lines : List Text)
    (h : ∀ l ∈ lines, found l shaderTag = false) :
    ParseShaderLines lines = ⟨[], []⟩ ∧
    ParseShaderLines [] = ⟨[], []⟩ ∧
    (∀ (fs : String → Option Text) (path : String), fs path = none →
      ParseShader fs path = ⟨[], []⟩) := by
  refine ⟨?_, rfl, ?_⟩
  · unfold ParseShaderLines
    rw [parseLoop_plain lines _ h]
    rfl
  · intro fs path hp
    unfold ParseShader
    rw [hp]
    rfl

/-- Instance of C3: two ordinary lines. -/
theorem ParseShader_no_marker_witness :
    ParseShaderLines ["void main()".toList, "// shader".toList] = ⟨[], []⟩ :=
  (ParseShader_no_marker ["void main()".toList, "// shader".toList] (by decide)).1

/-- C4: a line `m` containing `#shader` but neither `vertex` nor `fragment` changes
nothing: parsing `xs`, `m`, `ys` gives the sources of parsing `xs`, `ys`. -/
theorem ParseShader_other_marker (xs ys : List Text) (m : Text)
    (hm : found m shaderTag = true) (hv : found m vertexTag = false)
    (hf : found m fragmentTag = false) :
    ParseShaderLines (xs ++ m :: ys) = ParseShaderLines (xs ++ ys) := by
  unfold ParseShaderLines
  rw [parseLoop_append, parseLoop_cons, parseLine_other _ m hm hv hf, ← parseLoop_append]

/-- Instance of C4 with the marker `#shader geometry` inside a vertex section. -/
theorem ParseShader_other_marker_witness :
    ParseShaderLines (["#shader vertex".toList, "a".toList] ++ "#shader geometry".toList ::
        ["b".toList]) =
      ParseShaderLines (["#shader vertex".toList, "a".toList] ++ ["b".toList]) :=
  ParseShader_other_marker _ _ "#shader geometry".toList (by decide) (by decide) (by decide)

/-- C5 fails for a marker that contains both words: after `#shader vertex fragment`
the line `A` goes to the vertex source and not to the fragment source. -/
theorem ParseShader_fragment_marker_counterexample :
    found "#shader vertex fragment".toList shaderTag = true ∧
    found "#shader vertex fragment".toList fragmentTag = true ∧
    (∀ l ∈ ["A".toList], found l shaderTag = false) ∧
    ParseShaderLines ([] ++ "#shader vertex fragment".toList :: ["A".toList]) =
      ⟨"A\n".toList, []⟩ ∧
    (ParseShaderLines ([] ++ "#shader vertex fragment".toList :: ["A".toList])).FragmentSource ≠
      (ParseShaderLines []).FragmentSource ++ serialise ["A".toList] ∧
    (ParseShaderLines ([] ++ "#shader vertex fragment".toList :: ["A".toList])).VertexSource ≠
      (ParseShaderLines []).VertexSource := by
  decide

/-- C5, amended: a marker `m` containing `#shader` and `fragment` and not `vertex`
switches to the fragment section: the lines of `L` (none containing `#shader`) that
follow it are appended, serialised, to the fragment source of `xs`, and the vertex
source is that of `xs`. -/
theorem ParseShader_fragment_marker (xs L : List Text) (m : Text)
    (hm : found m shaderTag = true) (hf : found m fragmentTag = true)
    (hv : found m vertexTag = false) (hL : ∀ l ∈ L, found l shaderTag = false) :
    (ParseShaderLines (xs ++ m :: L)).FragmentSource =
      (ParseShaderLines xs).FragmentSource ++ serialise L ∧
    (ParseShaderLines (xs ++ m :: L)).VertexSource = (ParseShaderLines xs).VertexSource := by
  unfold ParseShaderLines
  rw [parseLoop_append, parseLoop_cons, parseLine_fragment _ m hm hv hf,
    parseLoop_plain L _ hL]
  simp

/-- Instance of C5 amended: `#shader fragment` after a vertex section. -/
theorem ParseShader_fragment_marker_witness :
    (ParseShaderLines (["#shader vertex".toList, "a".toList] ++ "#shader fragment".toList ::
        ["b".toList, "c".toList])).FragmentSource = "b\nc\n".toList :=
  (ParseShader_fragment_marker ["#shader vertex".toList, "a".toList]
    ["b".toList, "c".toList] "#shader fragment".toList (by decide) (by decide) (by decide)
    (by decide)).1.trans (by decide)

/-- C10: marker lines are never copied to the output: neither source returned by
`ParseShader` contains `#shader` (whatever the lines hold, so in particular for lines
without newline as `getline` delivers them). -/
theorem ParseShader_output_has_no_marker (lines : List Text) :
    found (ParseShaderLines lines).VertexSource shaderTag = false ∧
    found (ParseShaderLines lines).FragmentSource shaderTag = false := by
  rw [ParseShaderLines_eq_collect, found_eq_false_iff, found_eq_false_iff]
  constructor
  · apply not_infix_collect shaderTag (by decide) (by decide)
    intro i hi
    rw [← found_eq_false_iff]
    simp only [routedVertex, Bool.and_eq_true, Bool.not_eq_true'] at hi
    exact hi.1
  · apply not_infix_collect shaderTag (by decide) (by decide)
    intro i hi
    rw [← found_eq_false_iff]
    simp only [routedFragment, Bool.and_eq_true, Bool.not_eq_true'] at hi
    exact hi.1

/-! ## The error wrapper -/

theorem glGetError_nil (w : World) (h : w.errors = []) : glGetError w = (GL_NO_ERROR, w) := by
  unfold glGetError
  rw [h]

theorem glGetError_cons (w : World) (e : GLError) (es : List GLError) (h : w.errors = e :: es) :
    glGetError w = (e.val, { w with errors := es }) := by
  unfold glGetError
  rw [h]

/-- `GLClearErrors` empties the queue and touches nothing else. -/
theorem GLClearErrors_eq (w : World) : GLClearErrors w = { w with errors := [] } := by
  obtain ⟨q, cs, out⟩ := w
  induction q with
  | nil =>
    rw [GLClearErrors]
    simp [glGetError, GL_NO_ERROR]
  | cons e es ih =>
    rw [GLClearErrors]
    have he : e.val ≠ 0 := e.property
    simp [glGetError, GL_NO_ERROR, he, ih]

theorem GLCallLog_nil (t f : String) (l : Int) (cs : List GLCmd) (out : List String) :
    GLCallLog t f l ⟨[], cs, out⟩ = (true, ⟨[], cs, out⟩) := by
  simp [GLCallLog, glGetError, GL_NO_ERROR]

theorem GLCallLog_cons (t f : String) (l : Int) (e : GLError) (es : List GLError)
    (cs : List GLCmd) (out : List String) :
    GLCallLog t f l ⟨e :: es, cs, out⟩ =
      (false, ⟨es, cs, out ++ ["[OPENGL ERROR] (" ++ toString e.val ++ ") : " ++ t ++ " " ++ f ++
        " : " ++ toString l]⟩) := by
  have he : e.val ≠ 0 := e.property
  simp [GLCallLog, glGetError, he]

/-- What `GLCALL(x)` does, by the outcome of `x` run on the emptied queue. -/
theorem GLCALL_eq {α : Type} (x : Prog α) (t f : String) (l : Int) (w : World) :
    GLCALL x t f l w =
      match x ⟨[], w.calls, w.cout⟩ with
      | Outcome.halt w1 => Outcome.halt w1
      | Outcome.undefined w1 => Outcome.undefined w1
      | Outcome.ret a w1 =>
        match w1.errors with
        | [] => Outcome.ret a w1
        | e :: es => Outcome.halt ⟨es, w1.calls, w1.cout ++
            ["[OPENGL ERROR] (" ++ toString e.val ++ ") : " ++ t ++ " " ++ f ++ " : " ++
              toString l]⟩ := by
  unfold GLCALL
  rw [GLClearErrors_eq]
  cases hx : x ⟨[], w.calls, w.cout⟩ with
  | halt w1 => rfl
  | undefined w1 => rfl
  | ret a w1 =>
    obtain ⟨q, cs, out⟩ := w1
    cases q with
    | nil => simp [GLCallLog_nil]
    | cons e es => simp [GLCallLog_cons]

/-- `GLCALL` around a driver call: the outcome depends on the errors the call raises
and not on what was pending before. -/
theorem GLCALL_glCall {α : Type} (d : Driver) (c : GLCmd) (r : List GLCmd → α)
    (t f : String) (l : Int) (w : World) :
    GLCALL (glCall d c r) t f l w =
      match d.raises w.calls c with
      | [] => Outcome.ret (r w.calls) ⟨[], w.calls ++ [c], w.cout⟩
      | e :: es => Outcome.halt ⟨es, w.calls ++ [c], w.cout ++
          ["[OPENGL ERROR] (" ++ toString e.val ++ ") : " ++ t ++ " " ++ f ++ " : " ++
            toString l]⟩ := by
  rw [GLCALL_eq]
  simp only [glCall, issue, List.nil_append]
  cases d.raises w.calls c <;> rfl

/-! ## Claims about the error wrapper -/

/-- C8: `GLCALL(x)` first empties the error queue (the clearing loop terminates and
leaves nothing pending, whatever was queued), so `GLCallLog` returns `false` and the
process halts exactly when `x` itself left an error pending; when `x` raises nothing,
`GLCALL(x)` writes no diagnostic and returns to the caller. -/
theorem GLCALL_ignores_stale_errors {α : Type} (x : Prog α) (d : Driver) (c : GLCmd)
    (r : List GLCmd → α) (t f : String) (l : Int) (w : World) :
    (GLClearErrors w).errors = [] ∧ (GLClearErrors w).calls = w.calls ∧
    (GLClearErrors w).cout = w.cout ∧
    (∀ a w1, x (GLClearErrors w) = Outcome.ret a w1 →
      ((GLCallLog t f l w1).1 = false ↔ w1.errors ≠ []) ∧
      ((∃ w2, GLCALL x t f l w = Outcome.halt w2) ↔ w1.errors ≠ []) ∧
      (w1.errors = [] → GLCALL x t f l w = Outcome.ret a w1)) ∧
    ((∃ w2, GLCALL (glCall d c r) t f l w = Outcome.halt w2) ↔ d.raises w.calls c ≠ []) ∧
    (d.raises w.calls c = [] →
      GLCALL (glCall d c r) t f l w = Outcome.ret (r w.calls) ⟨[], w.calls ++ [c], w.cout⟩) := by
  refine ⟨by rw [GLClearErrors_eq], by rw [GLClearErrors_eq], by rw [GLClearErrors_eq],
    ?_, ?_, ?_⟩
  · intro a w1 hx
    rw [GLClearErrors_eq] at hx
    rw [GLCALL_eq, hx]
    obtain ⟨q, cs, out⟩ := w1
    cases q with
    | nil => simp [GLCallLog_nil]
    | cons e es => simp [GLCallLog_cons]
  · rw [GLCALL_glCall]
    cases d.raises w.calls c <;> simp
  · intro h
    rw [GLCALL_glCall, h]

/-- Instance of C8: with `GL_INVALID_ENUM` pending from earlier, a `glLinkProgram` that
raises nothing returns normally and prints nothing. -/
theorem GLCALL_ignores_stale_errors_witness :
    GLCALL (glCall (quietDriver 1) (GLCmd.glLinkProgram 1) (fun _ => ()))
        "glLinkProgram(programId)" "Application.cpp" 138 ⟨[invalidEnum], [], []⟩ =
      Outcome.ret () ⟨[], [GLCmd.glLinkProgram 1], []⟩ :=
  (GLCALL_ignores_stale_errors (glCall (quietDriver 1) (GLCmd.glLinkProgram 1) (fun _ => ()))
    (quietDriver 1) (GLCmd.glLinkProgram 1) (fun _ => ()) "glLinkProgram(programId)"
    "Application.cpp" 138 ⟨[invalidEnum], [], []⟩).2.2.2.2.2 rfl

/-- C9 fails as worded: the line written for code 1281 starts with `[OPENGL ERROR] (`,
not with `[ERROR] (`. -/
theorem GLCallLog_prefix_counterexample :
    (GLCallLog "glLinkProgram(programId)" "Application.cpp" 138
        ⟨[invalidValue, invalidEnum], [], []⟩).2.cout =
      ["[OPENGL ERROR] (1281) : glLinkProgram(programId) Application.cpp : 138"] ∧
    (GLCallLog "glLinkProgram(programId)" "Application.cpp" 138
        ⟨[invalidValue, invalidEnum], [], []⟩).2.cout ≠
      ["[ERROR] (1281) : glLinkProgram(programId) Application.cpp : 138"] := by
  decide

/-- C9, amended: on a non-empty queue `GLCallLog` returns `false` and writes exactly
one line, for the first queued code only (the other codes stay queued); the line is
`[OPENGL ERROR] (` followed by the decimal code, `) : `, the call expression, a space,
the file, ` : ` and the line number. -/
theorem GLCallLog_reports_first (functionname filename : String) (errorline : Int)
    (e : GLError) (es : List GLError) (cs : List GLCmd) (out : List String) :
    (GLCallLog functionname filename errorline ⟨e :: es, cs, out⟩).1 = false ∧
    (GLCallLog functionname filename errorline ⟨e :: es, cs, out⟩).2.cout =
      out ++ ["[OPENGL ERROR] (" ++ Nat.repr e.val ++ ") : " ++ functionname ++ " " ++ filename
        ++ " : " ++ toString errorline] ∧
    (GLCallLog functionname filename errorline ⟨e :: es, cs, out⟩).2.errors = es ∧
    (GLCallLog functionname filename errorline ⟨e :: es, cs, out⟩).2.calls = cs := by
  rw [GLCallLog_cons]
  exact ⟨rfl, rfl, rfl, rfl⟩

/-! ## The compile pipeline -/

theorem Prog.bind_apply {α β : Type} (x : Prog α) (f : α → Prog β) (w : World) :
    (x >>= f) w =
      match x w with
      | Outcome.ret a w1 => f a w1
      | Outcome.halt w1 => Outcome.halt w1
      | Outcome.undefined w1 => Outcome.undefined w1 := rfl

theorem Prog.pure_apply {α : Type} (a : α) (w : World) :
    (pure a : Prog α) w = Outcome.ret a w := rfl

/-- When every call of the run raises no error: with status `GL_FALSE` and a reported
log length of at least `1`, `CompileShader` returns `0` after writing the stage line and
the log and deleting the shader as its last call; with any other status it returns the
handle from `glCreateShader` after four calls, none a `glDeleteShader`. -/
theorem CompileShader_run (d : Driver) (file : String) (type : Nat) (source : Text)
    (w : World) (hkind : type = GL_VERTEX_SHADER ∨ type = GL_FRAGMENT_SHADER) :
    let id := d.createShader w.calls type
    let c1 := GLCmd.glCreateShader type
    let c2 := GLCmd.glShaderSource id (cstr source)
    let c3 := GLCmd.glCompileShader id
    let c4 := GLCmd.glGetShaderiv id GL_COMPILE_STATUS
    let c5 := GLCmd.glGetShaderiv id GL_INFO_LOG_LENGTH
    let status := d.getShaderiv (w.calls ++ [c1, c2, c3]) id GL_COMPILE_STATUS
    let length := d.getShaderiv (w.calls ++ [c1, c2, c3, c4]) id GL_INFO_LOG_LENGTH
    let c6 := GLCmd.glGetShaderInfoLog id length
    let c7 := GLCmd.glDeleteShader id
    let message := cstr ((d.getShaderInfoLog (w.calls ++ [c1, c2, c3, c4, c5]) id).take
      (length.toNat - 1))
    (quietRun d w.calls [c1, c2, c3, c4, c5, c6, c7] → status = GL_FALSE → 1 ≤ length →
      CompileShader d file type source w =
        Outcome.ret 0 ⟨[], w.calls ++ [c1, c2, c3, c4, c5, c6, c7],
          w.cout ++ ["Failed to compile " ++
            (if type = GL_FRAGMENT_SHADER then "Fragment" else "Vertex") ++ " shader!!!",
            String.mk message]⟩) ∧
    (quietRun d w.calls [c1, c2, c3, c4] → status ≠ GL_FALSE →
      CompileShader d file type source w =
        Outcome.ret id ⟨[], w.calls ++ [c1, c2, c3, c4], w.cout⟩) := by
  intro id c1 c2 c3 c4 c5 status length c6 c7 message
  have hname : (if type = GL_VERTEX_SHADER then "Vertex" else "Fragment") =
      (if type = GL_FRAGMENT_SHADER then "Fragment" else "Vertex") := by
    rcases hkind with h | h <;> rw [h] <;> decide
  constructor
  · intro hq hst hlen
    simp only [quietRun, List.append_assoc, List.singleton_append, List.cons_append,
      List.nil_append, and_true] at hq
    obtain ⟨q1, q2, q3, q4, q5, q6, q7⟩ := hq
    have hlen0 : (0 : Int) ≤ length := le_trans (by decide) hlen
    simp only [id, c1, c2, c3, c4, c5, c6, c7, status, length, message]
      at q1 q2 q3 q4 q5 q6 q7 hst hlen hlen0 ⊢
    simp only [CompileShader, Prog.bind_apply, glCreateShader, glShaderSource, glCompileShader,
      glGetShaderiv, glGetShaderInfoLog, glDeleteShader, GLCALL_glCall, alloca, coutLine,
      coutCString, Prog.pure_apply, hname, List.append_assoc, List.singleton_append,
      List.cons_append, List.nil_append, q1, q2, q3, q4, q5, q6, q7, hst, hlen, hlen0,
      if_true]
  · intro hq hst
    simp only [quietRun, List.append_assoc, List.singleton_append, List.cons_append,
      List.nil_append, and_true] at hq
    obtain ⟨q1, q2, q3, q4⟩ := hq
    simp only [id, c1, c2, c3, c4, status] at q1 q2 q3 q4 hst ⊢
    simp only [CompileShader, Prog.bind_apply, glCreateShader, glShaderSource, glCompileShader,
      glGetShaderiv, GLCALL_glCall, Prog.pure_apply, List.append_assoc, List.singleton_append,
      List.cons_append, List.nil_append, q1, q2, q3, q4, hst, if_false]

/-! ## Claims about the compile pipeline -/

end OpenGLApp
